import Mathlib

set_option maxHeartbeats 1000000

/-!
Verification of the Yle latest-article scraper.

JavaScript strings are modelled as `List Char` (sequences of code points).
The page-rendering driver (Playwright) is an external collaborator: its
responses (element counts, attribute and text reads, navigation outcomes)
are modelled as explicit oracle data, with each fallible read an `Except`.
Platform builtins used by the source (`String.prototype.trim`, the regex
`\s`, `split`/`join`, `replaceAll` with a one-character pattern, the WHATWG
`URL` constructor on the href shapes reachable here) are modelled once and
shared; the repository's own logic is transcribed per source file.
-/

namespace Scraper

/-- The apostrophe character U+0027. -/
def apos : Char := Char.ofNat 39

/-- Character class of the JavaScript regex `\s` and of `String.prototype.trim`:
ECMA-262 WhiteSpace ∪ LineTerminator (space, tab, LF, VT, FF, CR, NBSP, Ogham
space mark, the U+2000–U+200A range, LS, PS, NNBSP, MMSP, ideographic space,
and the BOM). -/
def jsIsSpace (c : Char) : Bool :=
  c == ' ' || c == '\t' || c == '\n' || c == '\x0b' || c == '\x0c' || c == '\r' ||
  c.toNat == 0xA0 || c.toNat == 0x1680 ||
  (decide (0x2000 ≤ c.toNat) && decide (c.toNat ≤ 0x200A)) ||
  c.toNat == 0x2028 || c.toNat == 0x2029 || c.toNat == 0x202F || c.toNat == 0x205F ||
  c.toNat == 0x3000 || c.toNat == 0xFEFF

/-- One pass of the regex replacement `.replace(/\s+/g, " ")`: each maximal run
of whitespace characters becomes a single space.  The flag records whether the
previous character was inside a whitespace run (so the run's space was already
emitted). -/
def collapseAux : Bool → List Char → List Char
  | _, [] => []
  | inRun, c :: cs =>
    if jsIsSpace c then
      (if inRun then [] else [' ']) ++ collapseAux true cs
    else
      c :: collapseAux false cs

/-- `line.replace(/\s+/g, " ")`. -/
def collapseWs (l : List Char) : List Char := collapseAux false l

/-- Left half of `String.prototype.trim`. -/
def trimLeft (l : List Char) : List Char := l.dropWhile jsIsSpace

/-- Right half of `String.prototype.trim`. -/
def trimRight (l : List Char) : List Char := (l.reverse.dropWhile jsIsSpace).reverse

/-- `String.prototype.trim`: strip leading and trailing whitespace. -/
def trimWs (l : List Char) : List Char := trimRight (trimLeft l)

/-- `s.split("\n")` of JavaScript: `"".split` is `[""]`, a trailing separator
yields a trailing empty piece. -/
def splitNl : List Char → List (List Char)
  | [] => [[]]
  | c :: cs =>
    if c = '\n' then [] :: splitNl cs
    else
      match splitNl cs with
      | [] => [[c]]
      | l :: ls => (c :: l) :: ls

/-- `parts.join("\n")` of JavaScript. -/
def joinNl : List (List Char) → List Char
  | [] => []
  | [l] => l
  | l :: ls => l ++ '\n' :: joinNl ls

/-- The per-line cleanup `(line) => line.replace(/\s+/g, " ").trim()` from
src/scraper.js line 98 (identically src/unnamed/part_000 line 96). -/
def cleanLine (l : List Char) : List Char := trimWs (collapseWs l)

/-- The text cleanup of src/scraper.js lines 96–100:
`text.split("\n").map((line) => line.replace(/\s+/g, " ").trim()).filter(Boolean).join("\n")`.
`filter(Boolean)` on strings keeps exactly the non-empty ones. -/
def normalize (s : List Char) : List Char :=
  joinNl (((splitNl s).map cleanLine).filter (fun l => !l.isEmpty))

/-- JavaScript `s || d` on a string and a default: the default when `s` is empty. -/
def jsOr (s d : List Char) : List Char := if s.isEmpty then d else s

/-- JavaScript `replaceAll` with a one-character pattern: each occurrence of `p`
becomes `r`, scanning left to right, never rescanning replacement text. -/
def replaceAllChar (p : Char) (r : List Char) : List Char → List Char
  | [] => []
  | c :: cs => (if c = p then r else [c]) ++ replaceAllChar p r cs

/-- `escapeHtml` from src/scraper.js lines 168–175: sequential `replaceAll` of
`&`, `<`, `>`, `"` and the apostrophe by their entities, in that order. -/
def escapeHtml (s : List Char) : List Char :=
  replaceAllChar apos ("&#39;".data)
    (replaceAllChar '"' ("&quot;".data)
      (replaceAllChar '>' ("&gt;".data)
        (replaceAllChar '<' ("&lt;".data)
          (replaceAllChar '&' ("&amp;".data) s))))

/-- The `paragraphs` value of src/scraper.js lines 120–125: when `text` is
empty, a literal placeholder paragraph; otherwise one `<p>` per line with the
line HTML-escaped, joined by newlines. -/
def renderParagraphs (text : List Char) : List Char :=
  if text.isEmpty then "<p>(No article text extracted)</p>".data
  else joinNl ((splitNl text).map (fun p => "<p>".data ++ escapeHtml p ++ "</p>".data))

/-- The record returned by `fetchLatestYleArticle` on success (src/scraper.js
lines 102–107). -/
structure ArticleRecord where
  title : List Char
  url : List Char
  text : List Char
  fetchedAt : List Char
  deriving DecidableEq

/-- Template slice of the src/scraper.js renderHtml literal before the
`<title>` hole. -/
def htmlP1 : List Char :=
  "<!doctype html>\n<html lang=\"fi\">\n<head>\n  <meta charset=\"utf-8\" />\n  <meta name=\"viewport\" content=\"width=device-width, initial-scale=1\" />\n  <title>".data

/-- Template slice between the `<title>` hole and the `og:title` hole. -/
def htmlP2 : List Char :=
  "</title>\n  <style>\n    body \x7b font-family: system-ui, -apple-system, Segoe UI, Roboto, sans-serif; margin: 2rem auto; padding: 0 1rem; max-width: 820px; line-height: 1.6; color: #111; \x7d\n    header \x7b margin-bottom: 1.5rem; \x7d\n    h1 \x7b font-size: 1.8rem; margin: 0 0 .5rem 0; \x7d\n    .meta \x7b color: #666; font-size: .95rem; \x7d\n    a \x7b color: #0a63c6; text-decoration: none; \x7d\n    a:hover \x7b text-decoration: underline; \x7d\n    footer \x7b margin-top: 2rem; color: #666; font-size: .9rem; \x7d\n  </style>\n  <meta name=\"robots\" content=\"noindex\" />\n  <meta property=\"og:title\" content=\"".data

/-- Template slice between the `og:title` hole and the `og:url` hole. -/
def htmlP3 : List Char := "\" />\n  <meta property=\"og:url\" content=\"".data

/-- Template slice between the `og:url` hole and the description timestamp hole. -/
def htmlP4 : List Char :=
  "\" />\n  <meta name=\"description\" content=\"Viimeisin Ylen artikkeli. Päivitetty: ".data

/-- Template slice between the description hole and the `<h1>` hole. -/
def htmlP5 : List Char :=
  "\" />\n  <link rel=\"icon\" href=\"data:,\" />\n  </head>\n<body>\n  <header>\n    <h1>".data

/-- Template slice between the `<h1>` hole and the anchor-href hole. -/
def htmlP6 : List Char := "</h1>\n    <div class=\"meta\">Lähde: <a href=\"".data

/-- Template slice between the anchor-href hole and the anchor-text hole. -/
def htmlP7 : List Char := "\">".data

/-- Template slice between the anchor-text hole and the meta timestamp hole. -/
def htmlP8 : List Char := "</a> · Päivitetty: ".data

/-- Template slice between the meta timestamp hole and the paragraphs hole. -/
def htmlP9 : List Char := "</div>\n  </header>\n  <main>\n    ".data

/-- Template slice after the paragraphs hole. -/
def htmlP10 : List Char :=
  "\n  </main>\n  <footer>\n    Rakennettu automaattisesti Playwright-selaimella.\n  </footer>\n</body>\n</html>".data

/-- `renderHtml` from src/scraper.js lines 119–166: the template literal with
every interpolation HTML-escaped (title with its two defaults, url twice more,
fetchedAt twice, and the paragraphs value). -/
def renderHtml (r : ArticleRecord) : List Char :=
  htmlP1 ++ escapeHtml (jsOr r.title ("Yle uusin artikkeli".data)) ++
  htmlP2 ++ escapeHtml (jsOr r.title ("Yle uusin artikkeli".data)) ++
  htmlP3 ++ escapeHtml r.url ++
  htmlP4 ++ escapeHtml r.fetchedAt ++
  htmlP5 ++ escapeHtml (jsOr r.title ("Viimeisin Ylen artikkeli".data)) ++
  htmlP6 ++ escapeHtml r.url ++
  htmlP7 ++ escapeHtml r.url ++
  htmlP8 ++ escapeHtml r.fetchedAt ++
  htmlP9 ++ renderParagraphs r.text ++
  htmlP10

/-- One homepage element matching `.underlay-link`; `href` is the value that
`getAttribute("href")` returns, `none` modelling `null`. -/
structure LinkEl where
  href : Option (List Char)
  deriving DecidableEq

/-- The homepage as seen through the driver: the elements matching
`.underlay-link`, in document order. -/
structure Homepage where
  links : List LinkEl
  deriving DecidableEq

/-- Failure taxonomy of the run's raised errors. -/
inductive ScrapeError where
  | NavigationError
  | NotFound
  | Timeout
  deriving DecidableEq

deriving instance DecidableEq for Except

/-- Driver responses for the loaded article page: the match counts of the three
container locators, and the text reads, each read modelled as `Except Unit`
with `.error` for a raising read (the source catches each one).  `h1` is a
`textContent` read, whose value may also be `null`. -/
structure ArticlePage where
  h1 : Except Unit (Option (List Char))
  articleCount : Nat
  articleInnerText : Except Unit (List Char)
  contentCount : Nat
  contentInnerText : Except Unit (List Char)
  mainCount : Nat
  mainInnerText : Except Unit (List Char)

/-- Value of a read with `.catch(() => d)` attached: the result, or `d` if the
read raised. -/
def catchOr (d : List Char) : Except Unit (List Char) → List Char
  | .ok v => v
  | .error _ => d

/-- Title resolution of src/scraper.js lines 58–65: the first `h1` element's
`textContent` with a caught failure as `null`, optional-chained `trim`, then
`|| ""`. -/
def resolveTitle (p : ArticlePage) : List Char :=
  match p.h1 with
  | .ok (some t) => trimWs t
  | _ => []

/-- Body resolution of src/scraper.js lines 57, 67–93: `text` starts empty; the
`article` tier runs when that locator has matches; the content-class tier runs
only when `text` is still empty and its locator has matches; the `main` tier
likewise.  Each tier is the trimmed, caught `innerText` of the first match. -/
def resolveBody (p : ArticlePage) : List Char :=
  let text : List Char := []
  let text := if p.articleCount != 0 then trimWs (catchOr [] p.articleInnerText) else text
  let text := if text.isEmpty && (p.contentCount != 0) then trimWs (catchOr [] p.contentInnerText) else text
  let text := if text.isEmpty && (p.mainCount != 0) then trimWs (catchOr [] p.mainInnerText) else text
  text

/-- The Content Resolver of src/scraper.js lines 56–93: title and body text. -/
def resolveContent (p : ArticlePage) : List Char × List Char :=
  (resolveTitle p, resolveBody p)

/-- Spec-side value of one fallback tier: the trimmed caught `innerText` of the
first match when the locator has matches, nothing otherwise. -/
def articleTier (p : ArticlePage) : List Char :=
  if p.articleCount != 0 then trimWs (catchOr [] p.articleInnerText) else []

/-- Spec-side value of the content-class tier. -/
def contentTier (p : ArticlePage) : List Char :=
  if p.contentCount != 0 then trimWs (catchOr [] p.contentInnerText) else []

/-- Spec-side value of the `main`-region tier. -/
def mainTier (p : ArticlePage) : List Char :=
  if p.mainCount != 0 then trimWs (catchOr [] p.mainInnerText) else []

/-- Spec-side combinator: the first non-empty entry, else empty (the spec's
"first non-empty result wins", with the empty string as terminal fallback). -/
def firstNonEmpty : List (List Char) → List Char
  | [] => []
  | l :: ls => if l.isEmpty then firstNonEmpty ls else l

/-- Substring search, used to state that a pattern occurs (or not) in rendered
text: some suffix of the text starts with the pattern. -/
def containsSub (pat l : List Char) : Bool :=
  l.tails.any (fun t => List.isPrefixOf pat t)

/-- JavaScript `s.startsWith(pre)`. -/
def jsStartsWith (pre s : List Char) : Bool := pre.isPrefixOf s

/-- Characters the WHATWG URL path serializer passes through verbatim: ASCII
alphanumerics and a conservative sublist of the characters outside every
percent-encode set of the standard. -/
def urlSafeChar (c : Char) : Bool :=
  c.isAlphanum || c == '-' || c == '.' || c == '_' || c == '~' || c == '!' ||
  c == '$' || c == '&' || c == '(' || c == ')' || c == '*' || c == '+' ||
  c == ',' || c == ';' || c == '=' || c == ':' || c == '@' || c == '/'

/-- The href fragment on which the URL-constructor model below is faithful: a
path-absolute href (starting with `/` but not the protocol-relative `//`), all
of whose characters serialize verbatim, with no dot segments (no `/.`
substring, which also excludes every `.` and `..` segment). -/
def simpleHref (href : List Char) : Bool :=
  jsStartsWith ("/".data) href && !(jsStartsWith ("//".data) href) &&
  href.all urlSafeChar && !(containsSub ("/.".data) href)

/-- Partial model of the platform builtin
`new URL(href, "https://yle.fi").toString()`, faithful exactly on the
`simpleHref` fragment: on a path-absolute, non-protocol-relative href whose
characters the WHATWG path serializer passes through verbatim and which has no
dot segments, the builtin returns the base origin followed by the href
unchanged.  Hrefs outside the fragment — scheme-ful values such as `mailto:`
ones, for which the constructor ignores the base, protocol-relative `//host`
values, dot segments, which the serializer removes, and characters it
percent-encodes — are not modelled: there the function returns the empty
string as an explicit unmodelled-value marker, and no theorem depends on that
branch. -/
def urlResolveYle (href : List Char) : List Char :=
  if simpleHref href then "https://yle.fi".data ++ href
  else []

/-- Target-URL computation of src/scraper.js lines 32–34: an href starting with
`"http"` is kept verbatim, anything else goes through the URL constructor with
base `"https://yle.fi"`. -/
def resolveHref (href : List Char) : List Char :=
  if jsStartsWith ("http".data) href then href else urlResolveYle href

/-- Spec-side notion of a fully qualified absolute URL for this site: an
explicit `http://` or `https://` scheme-and-authority prefix (spec §3: "always
a fully qualified URL (resolved against the site's base origin if the source
link was relative)"). -/
def isFullyQualified (u : List Char) : Bool :=
  jsStartsWith ("http://".data) u || jsStartsWith ("https://".data) u

/-- Latest-link step of src/scraper.js lines 21–34.  With zero matching
elements, `page.waitForSelector(".underlay-link", ...)` raises the driver's
timeout error once the bounded wait elapses; otherwise the first element's
`href` attribute is read, an absent (`null`) or empty value raises
`Error("No href found on the most recent .underlay-link")` — the NotFound
failure — and otherwise the target URL is computed from the href. -/
def latestLink (h : Homepage) : Except ScrapeError (List Char) :=
  match h.links with
  | [] => .error .Timeout
  | el :: _ =>
    match el.href with
    | none => .error .NotFound
    | some s => if s.isEmpty then .error .NotFound else .ok (resolveHref s)

/-- Oracle for one orchestrator run: the outcome of the homepage `goto`, the
homepage contents, the outcome of the article-page `goto`, and the article
page contents. -/
structure DriverRun where
  gotoHome : Except ScrapeError Unit
  homepage : Homepage
  gotoArticle : Except ScrapeError Unit
  articlePage : ArticlePage

/-- `fetchLatestYleArticle` of src/scraper.js lines 10–117: the try-body of
lines 14–107 with the catch of lines 108–111, so every raised step error is
converted into a `null` result.  `now` is the value the platform returns for
`new Date().toISOString()` at record construction. -/
def runScrape (d : DriverRun) (now : List Char) : Option ArticleRecord :=
  match d.gotoHome with
  | .error _ => none
  | .ok _ =>
    match latestLink d.homepage with
    | .error _ => none
    | .ok targetUrl =>
      match d.gotoArticle with
      | .error _ => none
      | .ok _ =>
        some ⟨resolveTitle d.articlePage, targetUrl,
              normalize (resolveBody d.articlePage), now⟩

/-- Observable collaborator events of one run. -/
inductive Ev where
  | gotoHomeEv
  | waitSelectorEv
  | gotoArticleEv
  | readContentEv
  | reportErrorEv
  | pageCloseEv
  | contextCloseEv
  | browserCloseEv
  deriving DecidableEq

/-- The try-body of `fetchLatestYleArticle` as a traced computation: the events
issued so far, and either the constructed record or the raised error. -/
def bodyTrace (d : DriverRun) (now : List Char) :
    List Ev × Except ScrapeError ArticleRecord :=
  match d.gotoHome with
  | .error e => ([.gotoHomeEv], .error e)
  | .ok _ =>
    match latestLink d.homepage with
    | .error e => ([.gotoHomeEv, .waitSelectorEv], .error e)
    | .ok targetUrl =>
      match d.gotoArticle with
      | .error e => ([.gotoHomeEv, .waitSelectorEv, .gotoArticleEv], .error e)
      | .ok _ =>
        ([.gotoHomeEv, .waitSelectorEv, .gotoArticleEv, .readContentEv],
         .ok ⟨resolveTitle d.articlePage, targetUrl,
              normalize (resolveBody d.articlePage), now⟩)

/-- The three `finally` events of src/scraper.js lines 112–116: `page.close()`,
`context.close()` and `browser.close()`, each with its own failure swallowed by
`.catch(() => \x7b\x7d)`. -/
def finallyEvs : List Ev := [.pageCloseEv, .contextCloseEv, .browserCloseEv]

/-- JavaScript `try/catch/finally` over a traced body: on a raised error the
catch handler reports it (`console.error`, `process.exitCode = 1`) and the
result is `null`; the finally block's events follow on every path. -/
def tryCatchFinally (b : List Ev × Except ScrapeError ArticleRecord) :
    List Ev × Option ArticleRecord :=
  match b with
  | (evs, .ok r) => (evs ++ finallyEvs, some r)
  | (evs, .error _) => (evs ++ [.reportErrorEv] ++ finallyEvs, none)

/-- `fetchLatestYleArticle` together with its collaborator-event trace. -/
def runScrapeTraced (d : DriverRun) (now : List Char) : List Ev × Option ArticleRecord :=
  tryCatchFinally (bodyTrace d now)

/-- Spec-side safety predicate for C1: the text holds no raw `<`, `>`, `"` or
apostrophe character. -/
def rawMarkupFree (l : List Char) : Bool :=
  l.all (fun c => !(c == '<') && !(c == '>') && !(c == '"') && !(c == apos))

/-- Spec-side predicate for C1: every occurrence of `&` begins one of the five
escape entities `&amp;`, `&lt;`, `&gt;`, `&quot;`, `&#39;`. -/
def ampOk : List Char → Bool
  | [] => true
  | c :: cs =>
    (if c = '&' then
      List.isPrefixOf ("amp;".data) cs || List.isPrefixOf ("lt;".data) cs ||
      List.isPrefixOf ("gt;".data) cs || List.isPrefixOf ("quot;".data) cs ||
      List.isPrefixOf ("#39;".data) cs
     else true) && ampOk cs

/-- Helper predicate for the normalizer proofs: the list does not start with a
whitespace character. -/
def noWsStart : List Char → Bool
  | [] => true
  | c :: _ => !jsIsSpace c

/-- Helper predicate for the normalizer proofs: every whitespace character in
the list is a single space, and no whitespace character is followed by another
whitespace character — the shape of a line after `replace(/\s+/g, " ")`. -/
def lineCollapsed : List Char → Bool
  | [] => true
  | c :: cs =>
    (if jsIsSpace c then (c == ' ') && noWsStart cs else true) && lineCollapsed cs

/-- Concrete article page used by witnesses: the `article` container and the
content-class container are both present and populated, with different texts. -/
def examplePage : ArticlePage :=
  ⟨.ok (some ("Headline".data)), 1, .ok ("Article body".data),
   1, .ok ("Other body".data), 1, .ok ("Main body".data)⟩

/-- Concrete article page used by witnesses: no containers, every read raises. -/
def emptyPage : ArticlePage :=
  ⟨.error (), 0, .error (), 0, .error (), 0, .error ()⟩

/-- Concrete driver oracle for a fully successful run, used by witnesses. -/
def okRun : DriverRun :=
  ⟨.ok (), ⟨[⟨some ("/a/1".data)⟩, ⟨some ("/b/2".data)⟩]⟩, .ok (), examplePage⟩

/-- Plain-text rendering of src/scraper.js lines 200–207: the array
`[title ? ... : null, "URL: "+url, "---", text || placeholder]` with
`filter(Boolean)` dropping `null` (and any empty string), joined by newlines. -/
def renderPlain (r : ArticleRecord) : List Char :=
  joinNl
    ((([ if r.title.isEmpty then none else some ("TITLE: ".data ++ r.title),
         some ("URL: ".data ++ r.url),
         some ("---".data),
         some (if r.text.isEmpty then "(No article text extracted)".data else r.text) ]
       : List (Option (List Char))).filterMap id).filter (fun l => !l.isEmpty))

end Scraper

namespace Scraper.part000

/-- The per-line cleanup of src/unnamed/part_000 line 96. -/
def cleanLine (l : List Char) : List Char := trimWs (collapseWs l)

/-- The text cleanup of src/unnamed/part_000 lines 94–98. -/
def normalize (s : List Char) : List Char :=
  joinNl (((splitNl s).map cleanLine).filter (fun l => !l.isEmpty))

/-- Target-URL computation of src/unnamed/part_000 lines 30–32. -/
def resolveHref (href : List Char) : List Char :=
  if jsStartsWith ("http".data) href then href else urlResolveYle href

/-- Latest-link step of src/unnamed/part_000 lines 19–32. -/
def latestLink (h : Homepage) : Except ScrapeError (List Char) :=
  match h.links with
  | [] => .error .Timeout
  | el :: _ =>
    match el.href with
    | none => .error .NotFound
    | some s => if s.isEmpty then .error .NotFound else .ok (resolveHref s)

/-- Title resolution of src/unnamed/part_000 lines 56–63. -/
def resolveTitle (p : ArticlePage) : List Char :=
  match p.h1 with
  | .ok (some t) => trimWs t
  | _ => []

/-- Body resolution of src/unnamed/part_000 lines 55, 65–91. -/
def resolveBody (p : ArticlePage) : List Char :=
  let text : List Char := []
  let text := if p.articleCount != 0 then trimWs (catchOr [] p.articleInnerText) else text
  let text := if text.isEmpty && (p.contentCount != 0) then trimWs (catchOr [] p.contentInnerText) else text
  let text := if text.isEmpty && (p.mainCount != 0) then trimWs (catchOr [] p.mainInnerText) else text
  text

/-- The Content Resolver of src/unnamed/part_000 lines 54–91. -/
def resolveContent (p : ArticlePage) : List Char × List Char :=
  (resolveTitle p, resolveBody p)

/-- Output construction of src/unnamed/part_000 lines 100–107. -/
def renderOut (title url text : List Char) : List Char :=
  joinNl
    ((([ if title.isEmpty then none else some ("TITLE: ".data ++ title),
         some ("URL: ".data ++ url),
         some ("---".data),
         some (if text.isEmpty then "(No article text extracted)".data else text) ]
       : List (Option (List Char))).filterMap id).filter (fun l => !l.isEmpty))

/-- `fetchLatestYleArticle` of src/unnamed/part_000 lines 8–118: the same
pipeline, producing the printed plain-text output instead of a record; a raised
error is caught (lines 110–112) and no output is printed. -/
def runOutput (d : DriverRun) : Option (List Char) :=
  match d.gotoHome with
  | .error _ => none
  | .ok _ =>
    match latestLink d.homepage with
    | .error _ => none
    | .ok targetUrl =>
      match d.gotoArticle with
      | .error _ => none
      | .ok _ =>
        some (renderOut (resolveTitle d.articlePage) targetUrl
          (normalize (resolveBody d.articlePage)))

end Scraper.part000

namespace Scraper

/-- A list with a non-empty prefix appended is non-empty. -/
theorem isEmpty_append_left_false (p s : List Char) (h : p ≠ []) :
    (p ++ s).isEmpty = false := by
  cases p with
  | nil => exact absurd rfl h
  | cons c cs => rfl

/-- C3: the Text Normalizer splits the input on line breaks, collapses every
within-line whitespace run to a single space, trims each line, drops the lines
that become empty, and rejoins the survivors with single line breaks in their
original relative order; in particular `normalize "a   b\n\n c \n" = "a b\nc"`. -/
theorem claim_C3 :
    (∀ x, normalize x =
      joinNl (((splitNl x).map (fun l => trimWs (collapseWs l))).filter
        (fun l => !l.isEmpty))) ∧
    normalize ("a   b\n\n c \n".data) = "a b\nc".data :=
  ⟨fun _ => rfl, by decide⟩

/-- C5 counterexample: the href `"httpx"` is accepted (it is non-empty), the
resolver keeps it verbatim because it starts with `"http"`, and the resulting
url is not a fully qualified absolute URL. -/
theorem claim_C5_counterexample :
    ("httpx".data ≠ []) ∧
    resolveHref ("httpx".data) = "httpx".data ∧
    isFullyQualified (resolveHref ("httpx".data)) = false := by
  decide

/-- C5 (amended): an href starting with `"http"` is kept verbatim, even when it
is not a fully qualified URL; any other href is handed to the platform URL
constructor with the fixed base origin `"https://yle.fi"` (modelled by
`urlResolveYle` on its faithful fragment only); on the `simpleHref` fragment —
path-absolute, not protocol-relative, verbatim-serializing characters, no dot
segments — the result is the base origin followed by the href, a fully
qualified URL; in particular `"/a/123"` resolves to
`"https://yle.fi/a/123"`. -/
theorem claim_C5 :
    ∀ href : List Char,
      (jsStartsWith ("http".data) href = true → resolveHref href = href) ∧
      (jsStartsWith ("http".data) href = false →
        resolveHref href = urlResolveYle href) ∧
      (simpleHref href = true →
        resolveHref href = "https://yle.fi".data ++ href ∧
        isFullyQualified (resolveHref href) = true) ∧
      resolveHref ("/a/123".data) = "https://yle.fi/a/123".data := by
  intro href
  refine ⟨?_, ?_, ?_, by decide⟩
  · intro h; simp [resolveHref, h]
  · intro h; simp [resolveHref, h]
  · intro hs
    have hslash : jsStartsWith ("/".data) href = true := by
      have hs2 := hs
      unfold simpleHref at hs2
      exact ((Bool.and_eq_true _ _).mp
        (((Bool.and_eq_true _ _).mp (((Bool.and_eq_true _ _).mp hs2).1)).1)).1
    obtain ⟨t, rfl⟩ : ∃ t, href = '/' :: t := by
      cases href with
      | nil => simp [jsStartsWith, List.isPrefixOf] at hslash
      | cons c cs =>
        have hc : '/' = c := by
          simp [jsStartsWith, List.isPrefixOf] at hslash
          exact hslash
        exact ⟨cs, by rw [← hc]⟩
    have hhttp : jsStartsWith ("http".data) ('/' :: t) = false := by
      simp [jsStartsWith, List.isPrefixOf]
    have hres : resolveHref ('/' :: t) = "https://yle.fi".data ++ '/' :: t := by
      simp [resolveHref, hhttp, urlResolveYle, hs]
    refine ⟨hres, ?_⟩
    rw [hres]
    simp [isFullyQualified, jsStartsWith, List.isPrefixOf]

/-- C5 witness: instantiation of the amended claim at the href `"/a/123"`. -/
theorem claim_C5_witness :
    resolveHref ("/a/123".data) = "https://yle.fi".data ++ "/a/123".data ∧
    isFullyQualified (resolveHref ("/a/123".data)) = true :=
  (claim_C5 ("/a/123".data)).2.2.1 (by decide)


/-- C6 counterexample: a homepage with zero matching elements makes the bounded
wait raise its Timeout error; the failure is not the NotFound error. -/
theorem claim_C6_counterexample :
    latestLink ⟨[]⟩ = .error ScrapeError.Timeout ∧
    latestLink ⟨[]⟩ ≠ .error ScrapeError.NotFound := by
  decide

/-- C6 (amended): the Latest-Link Resolver fails with NotFound exactly when a
first matching element exists but its link attribute is absent or empty; a
homepage with zero matching elements (after the bounded wait) fails with the
wait's Timeout error instead of NotFound; and the orchestrator converts any
latest-link failure so that the run returns `null`. -/
theorem claim_C6 :
    ∀ h : Homepage,
      (latestLink h = .error ScrapeError.NotFound ↔
        ∃ el rest, h.links = el :: rest ∧ (el.href = none ∨ el.href = some [])) ∧
      (h.links = [] → latestLink h = .error ScrapeError.Timeout) ∧
      (∀ g a p now, (∃ e, latestLink h = .error e) →
        runScrape ⟨g, h, a, p⟩ now = none) := by
  intro h
  obtain ⟨links⟩ := h
  refine ⟨?_, ?_, ?_⟩
  · cases links with
    | nil =>
      constructor
      · intro hcontra
        rw [show latestLink ⟨[]⟩ = .error ScrapeError.Timeout from rfl] at hcontra
        exact absurd (Except.error.inj hcontra) (by decide)
      · rintro ⟨el, rest, heq, hor⟩
        exact List.noConfusion heq
    | cons el rest =>
      obtain ⟨href⟩ := el
      cases href with
      | none =>
        constructor
        · intro _
          exact ⟨⟨none⟩, rest, rfl, Or.inl rfl⟩
        · intro _
          rfl
      | some s =>
        cases s with
        | nil =>
          constructor
          · intro _
            exact ⟨⟨some []⟩, rest, rfl, Or.inr rfl⟩
          · intro _
            simp [latestLink]
        | cons c cs =>
          constructor
          · intro hcontra
            simp [latestLink] at hcontra
          · rintro ⟨el2, rest2, heq, hor⟩
            injection heq with h1 h2
            subst h1
            cases hor with
            | inl hnone => exact Option.noConfusion hnone
            | inr hempty => exact List.noConfusion (Option.some.inj hempty)
  · intro hnil
    have : links = [] := hnil
    subst this
    rfl
  · rintro g a p now ⟨e, he⟩
    cases g with
    | error e2 => rfl
    | ok u =>
      cases u
      simp only [runScrape]
      rw [he]

/-- C6 witness: the amended claim instantiated on an empty homepage and on a
run whose homepage has no matching elements. -/
theorem claim_C6_witness :
    latestLink ⟨[]⟩ = .error ScrapeError.Timeout ∧
    runScrape ⟨.ok (), ⟨[]⟩, .ok (), emptyPage⟩ ("2025-01-01T00:00:00.000Z".data) = none := by
  refine ⟨(claim_C6 ⟨[]⟩).2.1 rfl, ?_⟩
  exact (claim_C6 ⟨[]⟩).2.2 (.ok ()) (.ok ()) emptyPage ("2025-01-01T00:00:00.000Z".data)
    ⟨ScrapeError.Timeout, (claim_C6 ⟨[]⟩).2.1 rfl⟩

/-- C7: the orchestrator's run is atomic in its result: a failure of the
homepage load, the latest-link step or the article load is converted to a
`null` result, and when every step succeeds the result is a single complete
record with all four fields populated; `runScrape` is total, so no error
passes its boundary. -/
theorem claim_C7 :
    ∀ d : DriverRun, ∀ now : List Char,
      (∀ e, d.gotoHome = .error e → runScrape d now = none) ∧
      (∀ e, latestLink d.homepage = .error e → runScrape d now = none) ∧
      (∀ e, d.gotoArticle = .error e → runScrape d now = none) ∧
      (∀ u, d.gotoHome = .ok () → latestLink d.homepage = .ok u →
        d.gotoArticle = .ok () →
        runScrape d now = some ⟨resolveTitle d.articlePage, u,
          normalize (resolveBody d.articlePage), now⟩) := by
  intro d now
  refine ⟨?_, ?_, ?_, ?_⟩
  · intro e hg
    simp only [runScrape]
    rw [hg]
  · intro e he
    cases hg : d.gotoHome with
    | error e2 =>
      simp only [runScrape]
      rw [hg]
    | ok u =>
      cases u
      simp only [runScrape]
      rw [hg, he]
  · intro e ha
    cases hg : d.gotoHome with
    | error e2 =>
      simp only [runScrape]
      rw [hg]
    | ok u =>
      cases u
      cases hl : latestLink d.homepage with
      | error e2 =>
        simp only [runScrape]
        rw [hg, hl]
      | ok url =>
        simp only [runScrape]
        rw [hg, hl, ha]
  · intro u hg hl ha
    simp only [runScrape]
    rw [hg, hl, ha]

/-- C7 witness: instantiation on a fully successful concrete run. -/
theorem claim_C7_witness :
    runScrape okRun ("2025-01-01T00:00:00.000Z".data) =
      some ⟨"Headline".data, "https://yle.fi/a/1".data, "Article body".data,
            "2025-01-01T00:00:00.000Z".data⟩ := by
  have h := (claim_C7 okRun ("2025-01-01T00:00:00.000Z".data)).2.2.2
    ("https://yle.fi/a/1".data) rfl (by decide) rfl
  rw [h]
  decide

/-- C8: on every exit path — success, or a failure of any step — the event
trace of a run ends with the page-close, context-close and browser-close
events, and the traced run returns exactly the orchestrator's result. -/
theorem claim_C8 :
    ∀ d : DriverRun, ∀ now : List Char,
      (∃ pre, (runScrapeTraced d now).1 = pre ++ finallyEvs) ∧
      (runScrapeTraced d now).2 = runScrape d now := by
  intro d now
  have hfin : ∀ b : List Ev × Except ScrapeError ArticleRecord,
      ∃ pre, (tryCatchFinally b).1 = pre ++ finallyEvs := by
    rintro ⟨evs, r⟩
    cases r with
    | ok a => exact ⟨evs, rfl⟩
    | error e => exact ⟨evs ++ [.reportErrorEv], by simp [tryCatchFinally]⟩
  refine ⟨hfin (bodyTrace d now), ?_⟩
  cases hg : d.gotoHome with
  | error e =>
    simp only [runScrapeTraced, bodyTrace, runScrape]
    rw [hg]
    rfl
  | ok u =>
    cases u
    cases hl : latestLink d.homepage with
    | error e =>
      simp only [runScrapeTraced, bodyTrace, runScrape]
      rw [hg, hl]
      rfl
    | ok url =>
      cases ha : d.gotoArticle with
      | error e =>
        simp only [runScrapeTraced, bodyTrace, runScrape]
        rw [hg, hl, ha]
        rfl
      | ok u2 =>
        cases u2
        simp only [runScrapeTraced, bodyTrace, runScrape]
        rw [hg, hl, ha]
        rfl

/-- C2: the Content Resolver is total — every article page, including one whose
reads raise, yields a (title, body) pair — the body is the first non-empty tier
in the strict priority order article container, content-class container, main
region, with the empty string as terminal fallback; and when the article tier
is populated its text is the result, regardless of the content-class tier. -/
theorem claim_C2 :
    ∀ p : ArticlePage,
      resolveContent p =
        (resolveTitle p, firstNonEmpty [articleTier p, contentTier p, mainTier p]) ∧
      (articleTier p ≠ [] → (resolveContent p).2 = articleTier p) := by
  intro p
  have hbody : resolveBody p = firstNonEmpty [articleTier p, contentTier p, mainTier p] := by
    simp only [resolveBody, articleTier, contentTier, mainTier, firstNonEmpty]
    generalize trimWs (catchOr [] p.articleInnerText) = A
    generalize trimWs (catchOr [] p.contentInnerText) = C
    generalize trimWs (catchOr [] p.mainInnerText) = M
    cases (p.articleCount != 0) <;> cases (p.contentCount != 0) <;>
      cases (p.mainCount != 0) <;>
      cases hA : A.isEmpty <;> cases hC : C.isEmpty <;> cases hM : M.isEmpty <;>
      simp_all [List.isEmpty_iff]
  constructor
  · show (resolveTitle p, resolveBody p) =
      (resolveTitle p, firstNonEmpty [articleTier p, contentTier p, mainTier p])
    rw [hbody]
  · intro hne
    show resolveBody p = articleTier p
    rw [hbody]
    cases hat : articleTier p with
    | nil => exact absurd hat hne
    | cons c cs => simp [firstNonEmpty]

/-- C2 witness: on a page where the article container and the content-class
container are both populated with different texts, the article text wins. -/
theorem claim_C2_witness :
    (resolveContent examplePage).2 = articleTier examplePage ∧
    articleTier examplePage = "Article body".data ∧
    contentTier examplePage = "Other body".data :=
  ⟨(claim_C2 examplePage).2 (by decide), by decide, by decide⟩

/-- C10: the two source files implement the same extraction core: the
normalizer, the latest-link resolver, the href resolver and the content
resolver of src/unnamed/part_000 are the very functions of src/scraper.js, and
on every identical driver oracle the part_000 pipeline prints exactly the
plain-text rendering of the record scraper.js returns — same title, same
target URL, same cleaned body — with both runs failing to nothing together. -/
theorem claim_C10 :
    part000.normalize = normalize ∧
    part000.latestLink = latestLink ∧
    part000.resolveHref = resolveHref ∧
    part000.resolveContent = resolveContent ∧
    ∀ d now, part000.runOutput d = Option.map renderPlain (runScrape d now) := by
  refine ⟨rfl, rfl, rfl, rfl, ?_⟩
  intro d now
  cases hg : d.gotoHome with
  | error e =>
    simp only [part000.runOutput, runScrape]
    rw [hg]
    rfl
  | ok u =>
    cases u
    cases hl : latestLink d.homepage with
    | error e =>
      have hl2 : part000.latestLink d.homepage = Except.error e := hl
      simp only [part000.runOutput, runScrape]
      rw [hg, hl, hl2]
      rfl
    | ok url =>
      have hl2 : part000.latestLink d.homepage = Except.ok url := hl
      cases ha : d.gotoArticle with
      | error e =>
        simp only [part000.runOutput, runScrape]
        rw [hg, hl, hl2, ha]
        rfl
      | ok u2 =>
        cases u2
        simp only [part000.runOutput, runScrape]
        rw [hg, hl, hl2, ha]
        rfl

/-- C9 counterexample: with empty body text the Plain-Text Renderer's
placeholder is the literal `"(No article text extracted)"`, and the rendered
output does not contain the claim's literal `"no content extracted"`. -/
theorem claim_C9_counterexample :
    renderPlain ⟨[], "u".data, [], "t".data⟩ =
      "URL: u\n---\n(No article text extracted)".data ∧
    containsSub ("no content extracted".data)
      (renderPlain ⟨[], "u".data, [], "t".data⟩) = false := by
  decide

/-- C9 (amended): the Plain-Text Renderer emits a `TITLE: <title>` line
(omitted entirely when the title is empty), then a `URL: <url>` line, a `---`
separator line, and the body text, with the literal placeholder
`"(No article text extracted)"` substituted when the body text is empty. -/
theorem claim_C9 :
    ∀ r : ArticleRecord,
      renderPlain r =
        (if r.title.isEmpty then [] else "TITLE: ".data ++ r.title ++ ['\n']) ++
        "URL: ".data ++ r.url ++ '\n' :: "---".data ++ '\n' ::
        (if r.text.isEmpty then "(No article text extracted)".data else r.text) := by
  intro r
  have hurl : ("URL: ".data ++ r.url).isEmpty = false :=
    isEmpty_append_left_false _ _ (by decide)
  have htl : ("TITLE: ".data ++ r.title).isEmpty = false :=
    isEmpty_append_left_false _ _ (by decide)
  have hsep : ("---".data : List Char).isEmpty = false := by decide
  have hplace : ("(No article text extracted)".data : List Char).isEmpty = false := by
    decide
  cases hT : r.title.isEmpty <;> cases hX : r.text.isEmpty <;>
    simp [renderPlain, hT, hX, hurl, htl, hsep, hplace, joinNl, List.append_assoc]


/-- `replaceAllChar` distributes over concatenation. -/
theorem replaceAllChar_append (p : Char) (r x y : List Char) :
    replaceAllChar p r (x ++ y) = replaceAllChar p r x ++ replaceAllChar p r y := by
  induction x with
  | nil => rfl
  | cons c cs ih => simp [replaceAllChar, ih, List.append_assoc]

/-- `escapeHtml` distributes over concatenation. -/
theorem escapeHtml_append (x y : List Char) :
    escapeHtml (x ++ y) = escapeHtml x ++ escapeHtml y := by
  simp [escapeHtml, replaceAllChar_append]

/-- `escapeHtml` processes a string one character at a time. -/
theorem escapeHtml_cons (c : Char) (cs : List Char) :
    escapeHtml (c :: cs) = escapeHtml [c] ++ escapeHtml cs := by
  rw [show c :: cs = [c] ++ cs from rfl, escapeHtml_append]

/-- Escape value of the ampersand. -/
theorem escapeHtml_amp : escapeHtml ['&'] = "&amp;".data := by decide

/-- Escape value of the less-than sign. -/
theorem escapeHtml_lt : escapeHtml ['<'] = "&lt;".data := by decide

/-- Escape value of the greater-than sign. -/
theorem escapeHtml_gt : escapeHtml ['>'] = "&gt;".data := by decide

/-- Escape value of the double quote. -/
theorem escapeHtml_quot : escapeHtml ['"'] = "&quot;".data := by decide

/-- Escape value of the apostrophe. -/
theorem escapeHtml_apos : escapeHtml [apos] = "&#39;".data := by decide

/-- Any other character passes through `escapeHtml` unchanged. -/
theorem escapeHtml_other (c : Char) (h1 : c ≠ '&') (h2 : c ≠ '<') (h3 : c ≠ '>')
    (h4 : c ≠ '"') (h5 : c ≠ apos) : escapeHtml [c] = [c] := by
  simp [escapeHtml, replaceAllChar, h1, h2, h3, h4, h5]

/-- `rawMarkupFree` distributes over concatenation. -/
theorem rawMarkupFree_append (x y : List Char) :
    rawMarkupFree (x ++ y) = (rawMarkupFree x && rawMarkupFree y) := by
  simp [rawMarkupFree, List.all_append]

/-- A leading `&amp;` entity is transparent to `ampOk`. -/
theorem ampOk_amp (t : List Char) : ampOk ("&amp;".data ++ t) = ampOk t := by
  simp [ampOk, List.isPrefixOf]

/-- A leading `&lt;` entity is transparent to `ampOk`. -/
theorem ampOk_lt (t : List Char) : ampOk ("&lt;".data ++ t) = ampOk t := by
  simp [ampOk, List.isPrefixOf]

/-- A leading `&gt;` entity is transparent to `ampOk`. -/
theorem ampOk_gt (t : List Char) : ampOk ("&gt;".data ++ t) = ampOk t := by
  simp [ampOk, List.isPrefixOf]

/-- A leading `&quot;` entity is transparent to `ampOk`. -/
theorem ampOk_quot (t : List Char) : ampOk ("&quot;".data ++ t) = ampOk t := by
  simp [ampOk, List.isPrefixOf]

/-- A leading `&#39;` entity is transparent to `ampOk`. -/
theorem ampOk_num (t : List Char) : ampOk ("&#39;".data ++ t) = ampOk t := by
  simp [ampOk, List.isPrefixOf]

/-- A leading non-ampersand character is transparent to `ampOk`. -/
theorem ampOk_cons_ne (c : Char) (t : List Char) (h : c ≠ '&') :
    ampOk (c :: t) = ampOk t := by
  simp [ampOk, h]

/-- Safety of the escaper: its output holds no raw markup character, and every
ampersand in it starts an escape entity. -/
theorem escapeHtml_safe (s : List Char) :
    rawMarkupFree (escapeHtml s) = true ∧ ampOk (escapeHtml s) = true := by
  induction s with
  | nil => exact ⟨rfl, rfl⟩
  | cons c cs ih =>
    rw [escapeHtml_cons]
    by_cases h1 : c = '&'
    · subst h1
      rw [escapeHtml_amp]
      refine ⟨?_, ?_⟩
      · rw [rawMarkupFree_append, ih.1]
        decide
      · rw [ampOk_amp]
        exact ih.2
    · by_cases h2 : c = '<'
      · subst h2
        rw [escapeHtml_lt]
        refine ⟨?_, ?_⟩
        · rw [rawMarkupFree_append, ih.1]
          decide
        · rw [ampOk_lt]
          exact ih.2
      · by_cases h3 : c = '>'
        · subst h3
          rw [escapeHtml_gt]
          refine ⟨?_, ?_⟩
          · rw [rawMarkupFree_append, ih.1]
            decide
          · rw [ampOk_gt]
            exact ih.2
        · by_cases h4 : c = '"'
          · subst h4
            rw [escapeHtml_quot]
            refine ⟨?_, ?_⟩
            · rw [rawMarkupFree_append, ih.1]
              decide
            · rw [ampOk_quot]
              exact ih.2
          · by_cases h5 : c = apos
            · subst h5
              rw [escapeHtml_apos]
              refine ⟨?_, ?_⟩
              · rw [rawMarkupFree_append, ih.1]
                decide
              · rw [ampOk_num]
                exact ih.2
            · rw [escapeHtml_other c h1 h2 h3 h4 h5]
              refine ⟨?_, ?_⟩
              · rw [rawMarkupFree_append, ih.1]
                simp [rawMarkupFree, h2, h3, h4, h5]
              · show ampOk (c :: escapeHtml cs) = true
                rw [ampOk_cons_ne c _ h1]
                exact ih.2

/-- C1: text passed through `escapeHtml` never holds a raw `<`, `>`, `"` or
apostrophe, and every `&` in it begins one of the five escape entities, so the
five special characters appear only as their escape entities; the body line
`<script>alert(1)</script>` renders as the paragraph
`<p>&lt;script&gt;alert(1)&lt;/script&gt;</p>`, in which the raw markup
`<script>` does not occur; and the HTML renderer interpolates only
`escapeHtml`-escaped text (title with its defaults, url, fetchedAt, each body
line) between its template slices. -/
theorem claim_C1 :
    (∀ s, rawMarkupFree (escapeHtml s) = true ∧ ampOk (escapeHtml s) = true) ∧
    renderParagraphs ("<script>alert(1)</script>".data) =
      "<p>&lt;script&gt;alert(1)&lt;/script&gt;</p>".data ∧
    containsSub ("<script>".data)
      (renderParagraphs ("<script>alert(1)</script>".data)) = false ∧
    (∀ r : ArticleRecord, renderHtml r =
      htmlP1 ++ escapeHtml (jsOr r.title ("Yle uusin artikkeli".data)) ++
      htmlP2 ++ escapeHtml (jsOr r.title ("Yle uusin artikkeli".data)) ++
      htmlP3 ++ escapeHtml r.url ++
      htmlP4 ++ escapeHtml r.fetchedAt ++
      htmlP5 ++ escapeHtml (jsOr r.title ("Viimeisin Ylen artikkeli".data)) ++
      htmlP6 ++ escapeHtml r.url ++
      htmlP7 ++ escapeHtml r.url ++
      htmlP8 ++ escapeHtml r.fetchedAt ++
      htmlP9 ++ renderParagraphs r.text ++
      htmlP10) :=
  ⟨escapeHtml_safe, by decide, by decide, fun _ => rfl⟩


/-- A string without line breaks splits into itself alone. -/
theorem splitNl_no_nl (l : List Char) (h : '\n' ∉ l) : splitNl l = [l] := by
  induction l with
  | nil => rfl
  | cons c cs ih =>
    have hc : ¬(c = '\n') := fun hx => h (by simp [hx])
    have hcs : '\n' ∉ cs := fun hx => h (by simp [hx])
    simp [splitNl, hc, ih hcs]

/-- Splitting a line-break-free prefix followed by a line break peels off the
prefix. -/
theorem splitNl_append_nl (l t : List Char) (h : '\n' ∉ l) :
    splitNl (l ++ '\n' :: t) = l :: splitNl t := by
  induction l with
  | nil => simp [splitNl]
  | cons c cs ih =>
    have hc : ¬(c = '\n') := fun hx => h (by simp [hx])
    have hcs : '\n' ∉ cs := fun hx => h (by simp [hx])
    simp [splitNl, hc, ih hcs]

/-- `splitNl` is a left inverse of `joinNl` on non-empty lists of
line-break-free parts. -/
theorem splitNl_joinNl :
    ∀ L : List (List Char), L ≠ [] → (∀ l ∈ L, '\n' ∉ l) →
      splitNl (joinNl L) = L := by
  intro L
  induction L with
  | nil => intro hne _; exact absurd rfl hne
  | cons l ls ih =>
    intro _ hnl
    cases ls with
    | nil => exact splitNl_no_nl l (hnl l (by simp))
    | cons l2 ls2 =>
      rw [show joinNl (l :: l2 :: ls2) = l ++ '\n' :: joinNl (l2 :: ls2) from rfl,
        splitNl_append_nl l _ (hnl l (by simp)),
        ih (by simp) (fun m hm => hnl m (by simp [hm]))]

/-- Membership survives `dropWhile`. -/
theorem mem_of_mem_dropWhile (p : Char → Bool) (c : Char) :
    ∀ l : List Char, c ∈ l.dropWhile p → c ∈ l
  | [], h => h
  | a :: l, h => by
    rw [List.dropWhile_cons] at h
    by_cases ha : p a = true
    · rw [if_pos ha] at h
      exact List.mem_cons_of_mem a (mem_of_mem_dropWhile p c l h)
    · rwa [if_neg ha] at h

/-- Membership in a trimmed list implies membership in the original. -/
theorem mem_of_mem_trimWs (c : Char) (l : List Char) (h : c ∈ trimWs l) :
    c ∈ l := by
  have h1 : c ∈ (trimLeft l).reverse.dropWhile jsIsSpace := List.mem_reverse.1 h
  have h2 : c ∈ trimLeft l := List.mem_reverse.1 (mem_of_mem_dropWhile _ _ _ h1)
  exact mem_of_mem_dropWhile _ _ _ h2

/-- Every character of a collapsed line is the space character or a
non-whitespace character. -/
theorem mem_collapseAux (c : Char) :
    ∀ (l : List Char) (b : Bool), c ∈ collapseAux b l →
      c = ' ' ∨ jsIsSpace c = false := by
  intro l
  induction l with
  | nil => intro b h; simp [collapseAux] at h
  | cons a l ih =>
    intro b h
    simp only [collapseAux] at h
    by_cases ha : jsIsSpace a = true
    · rw [if_pos ha] at h
      rcases List.mem_append.1 h with h1 | h2
      · cases b with
        | true => simp at h1
        | false =>
          left
          simpa using h1
      · exact ih true h2
    · rw [if_neg ha] at h
      rcases List.mem_cons.1 h with h1 | h2
      · right
        rw [h1]
        simpa using ha
      · exact ih false h2

/-- The cleanup of a line never contains a line break. -/
theorem nl_not_mem_cleanLine (m : List Char) : '\n' ∉ cleanLine m := by
  intro hmem
  have h1 : '\n' ∈ collapseWs m := mem_of_mem_trimWs _ _ hmem
  rcases mem_collapseAux _ m false h1 with h | h
  · exact absurd h (by decide)
  · exact absurd h (by decide)


/-- The space character is whitespace. -/
theorem jsIsSpace_space : jsIsSpace ' ' = true := by decide

/-- The output of the whitespace collapse is a collapsed line, and a collapse
started inside a run never begins with whitespace. -/
theorem lineCollapsed_collapseAux :
    ∀ (l : List Char) (b : Bool),
      lineCollapsed (collapseAux b l) = true ∧
      (b = true → noWsStart (collapseAux b l) = true) := by
  intro l
  induction l with
  | nil => intro b; exact ⟨rfl, fun _ => rfl⟩
  | cons a l ih =>
    intro b
    by_cases ha : jsIsSpace a = true
    · cases b with
      | true =>
        have h1 := (ih true).1
        have h2 := (ih true).2 rfl
        constructor
        · simpa [collapseAux, ha] using h1
        · intro _
          simpa [collapseAux, ha] using h2
      | false =>
        have h1 := (ih true).1
        have h2 := (ih true).2 rfl
        constructor
        · show lineCollapsed (collapseAux false (a :: l)) = true
          simp only [collapseAux, ha, if_pos, if_true, if_false, List.singleton_append,
            Bool.false_eq_true, List.nil_append]
          simp [lineCollapsed, jsIsSpace_space, h1, h2]
        · intro hcontra
          exact absurd hcontra (by decide)
    · have h1 := (ih false).1
      constructor
      · show lineCollapsed (collapseAux b (a :: l)) = true
        simp only [collapseAux, ha, if_neg, if_false]
        simp [lineCollapsed, ha, h1]
      · intro _
        simp only [collapseAux, ha, if_neg, if_false]
        simp [noWsStart, ha]

/-- Collapsing is the identity on collapsed lines (and on collapsed lines not
starting with whitespace when the scan starts inside a run). -/
theorem collapseAux_fix :
    ∀ l : List Char, lineCollapsed l = true →
      collapseAux false l = l ∧ (noWsStart l = true → collapseAux true l = l) := by
  intro l
  induction l with
  | nil => intro _; exact ⟨rfl, fun _ => rfl⟩
  | cons a l ih =>
    intro h
    have hl : lineCollapsed l = true := by
      simp only [lineCollapsed, Bool.and_eq_true] at h
      exact h.2
    by_cases ha : jsIsSpace a = true
    · have hsplit : (if jsIsSpace a then (a == ' ') && noWsStart l else true) = true ∧
          lineCollapsed l = true := by
        rw [← Bool.and_eq_true]
        exact h
      have hcond : (a == ' ') = true ∧ noWsStart l = true := by
        rw [← Bool.and_eq_true]
        have := hsplit.1
        rwa [if_pos ha] at this
      have ha2 : a = ' ' := by simpa using hcond.1
      have hns : noWsStart l = true := hcond.2
      constructor
      · show collapseAux false (a :: l) = a :: l
        subst ha2
        simp [collapseAux, jsIsSpace_space, (ih hl).2 hns]
      · intro hcontra
        rw [show noWsStart (a :: l) = !jsIsSpace a from rfl, ha] at hcontra
        exact absurd hcontra (by decide)
    · constructor
      · show collapseAux false (a :: l) = a :: l
        simp [collapseAux, ha, (ih hl).1]
      · intro _
        show collapseAux true (a :: l) = a :: l
        simp [collapseAux, ha, (ih hl).1]

/-- The tail of a collapsed line is collapsed. -/
theorem lineCollapsed_tail (a : Char) (l : List Char)
    (h : lineCollapsed (a :: l) = true) : lineCollapsed l = true := by
  simp only [lineCollapsed, Bool.and_eq_true] at h
  exact h.2

/-- `dropWhile` preserves collapsedness. -/
theorem lineCollapsed_dropWhile (p : Char → Bool) :
    ∀ l : List Char, lineCollapsed l = true → lineCollapsed (l.dropWhile p) = true
  | [], h => h
  | a :: l, h => by
    rw [List.dropWhile_cons]
    by_cases hp : p a = true
    · rw [if_pos hp]
      exact lineCollapsed_dropWhile p l (lineCollapsed_tail a l h)
    · rwa [if_neg hp]

/-- Removing the last character preserves collapsedness. -/
theorem lineCollapsed_append_singleton (l : List Char) (c : Char)
    (h : lineCollapsed (l ++ [c]) = true) : lineCollapsed l = true := by
  induction l with
  | nil => rfl
  | cons a l ih =>
    rw [List.cons_append] at h
    have h2 := ih (lineCollapsed_tail _ _ h)
    simp only [lineCollapsed, Bool.and_eq_true] at h
    simp only [lineCollapsed, Bool.and_eq_true]
    refine ⟨?_, h2⟩
    by_cases ha : jsIsSpace a = true
    · rw [if_pos ha] at *
      cases l with
      | nil =>
        have hsp := ((Bool.and_eq_true _ _).mp h.1).1
        simp [hsp]
        rfl
      | cons d l2 =>
        exact h.1
    · rw [if_neg ha] at *

/-- Removing any suffix preserves collapsedness. -/
theorem lineCollapsed_append_left (p t : List Char)
    (h : lineCollapsed (p ++ t) = true) : lineCollapsed p = true := by
  induction t using List.reverseRecOn generalizing p with
  | nil => simpa using h
  | append_singleton t c ih =>
    apply ih
    apply lineCollapsed_append_singleton (p ++ t) c
    simpa [List.append_assoc] using h

/-- The right-trim of a list, followed by the removed whitespace, restores the
list. -/
theorem trimRight_prefix_eq (l : List Char) :
    trimRight l ++ (l.reverse.takeWhile jsIsSpace).reverse = l := by
  rw [trimRight, ← List.reverse_append, List.takeWhile_append_dropWhile,
    List.reverse_reverse]

/-- Trimming preserves collapsedness. -/
theorem lineCollapsed_trimWs (l : List Char) (h : lineCollapsed l = true) :
    lineCollapsed (trimWs l) = true := by
  have h1 : lineCollapsed (trimLeft l) = true := lineCollapsed_dropWhile _ l h
  apply lineCollapsed_append_left (trimRight (trimLeft l))
    (((trimLeft l).reverse.takeWhile jsIsSpace).reverse)
  rw [trimRight_prefix_eq]
  exact h1

/-- A dropWhile by a predicate never starts with a character satisfying it. -/
theorem noWsStart_dropWhile : ∀ l : List Char, noWsStart (l.dropWhile jsIsSpace) = true
  | [] => rfl
  | a :: l => by
    rw [List.dropWhile_cons]
    by_cases hp : jsIsSpace a = true
    · rw [if_pos hp]
      exact noWsStart_dropWhile l
    · rw [if_neg hp]
      show (!jsIsSpace a) = true
      simpa using hp

/-- `dropWhile` is the identity on lists not starting with whitespace. -/
theorem dropWhile_of_noWsStart (l : List Char) (h : noWsStart l = true) :
    l.dropWhile jsIsSpace = l := by
  cases l with
  | nil => rfl
  | cons a l =>
    have ha : jsIsSpace a = false := by simpa [noWsStart] using h
    rw [List.dropWhile_cons, if_neg (by simp [ha])]

/-- A prefix of a list not starting with whitespace also does not start with
whitespace. -/
theorem noWsStart_prefix_closed (p t l : List Char) (hp : p ++ t = l)
    (h : noWsStart l = true) : noWsStart p = true := by
  subst hp
  cases p with
  | nil => rfl
  | cons c cs => exact h

/-- Dropping leading whitespace twice is the same as once. -/
theorem dropWhile_ws_idem (l : List Char) :
    (l.dropWhile jsIsSpace).dropWhile jsIsSpace = l.dropWhile jsIsSpace :=
  dropWhile_of_noWsStart _ (noWsStart_dropWhile l)

/-- Right trimming is idempotent. -/
theorem trimRight_idem (l : List Char) : trimRight (trimRight l) = trimRight l := by
  show ((trimRight l).reverse.dropWhile jsIsSpace).reverse = trimRight l
  rw [trimRight, List.reverse_reverse, dropWhile_ws_idem]

/-- A trimmed list does not start with whitespace. -/
theorem noWsStart_trimWs (l : List Char) : noWsStart (trimWs l) = true :=
  noWsStart_prefix_closed _ _ _ (trimRight_prefix_eq (trimLeft l)) (noWsStart_dropWhile l)

/-- Trimming is idempotent. -/
theorem trimWs_idem (l : List Char) : trimWs (trimWs l) = trimWs l := by
  show trimRight (trimLeft (trimWs l)) = trimWs l
  rw [show trimLeft (trimWs l) = trimWs l from
    dropWhile_of_noWsStart _ (noWsStart_trimWs l)]
  show trimRight (trimRight (trimLeft l)) = trimRight (trimLeft l)
  exact trimRight_idem _

/-- The per-line cleanup is idempotent. -/
theorem cleanLine_idem (l : List Char) : cleanLine (cleanLine l) = cleanLine l := by
  have h1 : lineCollapsed (collapseWs l) = true := (lineCollapsed_collapseAux l false).1
  have h2 : lineCollapsed (trimWs (collapseWs l)) = true := lineCollapsed_trimWs _ h1
  have h3 : collapseWs (trimWs (collapseWs l)) = trimWs (collapseWs l) :=
    (collapseAux_fix _ h2).1
  show trimWs (collapseWs (trimWs (collapseWs l))) = trimWs (collapseWs l)
  rw [h3, trimWs_idem]

/-- Mapping a function that fixes every member of a list fixes the list. -/
theorem map_eq_self_of (f : List Char → List Char) :
    ∀ L : List (List Char), (∀ l ∈ L, f l = l) → L.map f = L := by
  intro L h
  induction L with
  | nil => rfl
  | cons a L ih =>
    simp only [List.map_cons, h a (by simp), List.cons.injEq, true_and]
    exact ih (fun l hl => h l (by simp [hl]))

/-- The normalizer fixes any join of clean lines. -/
theorem normalize_fix_of (L : List (List Char))
    (hid : ∀ l ∈ L, cleanLine l = l)
    (hne : ∀ l ∈ L, l.isEmpty = false)
    (hnl : ∀ l ∈ L, '\n' ∉ l) :
    normalize (joinNl L) = joinNl L := by
  cases L with
  | nil => decide
  | cons l0 ls =>
    have hsplit : splitNl (joinNl (l0 :: ls)) = l0 :: ls :=
      splitNl_joinNl _ (by simp) hnl
    show joinNl (((splitNl (joinNl (l0 :: ls))).map cleanLine).filter
      (fun l => !l.isEmpty)) = joinNl (l0 :: ls)
    rw [hsplit, map_eq_self_of _ _ hid,
      List.filter_eq_self.2 (fun a ha => by simp [hne a ha])]

/-- C4: the Text Normalizer is idempotent. -/
theorem claim_C4 : ∀ x : List Char, normalize (normalize x) = normalize x := by
  intro x
  show normalize (joinNl (((splitNl x).map cleanLine).filter (fun l => !l.isEmpty))) =
    joinNl (((splitNl x).map cleanLine).filter (fun l => !l.isEmpty))
  apply normalize_fix_of
  · intro l hl
    obtain ⟨m, _, rfl⟩ := List.mem_map.1 (List.mem_filter.1 hl).1
    exact cleanLine_idem m
  · intro l hl
    have h := (List.mem_filter.1 hl).2
    simpa using h
  · intro l hl
    obtain ⟨m, _, rfl⟩ := List.mem_map.1 (List.mem_filter.1 hl).1
    exact nl_not_mem_cleanLine m

end Scraper
